import Mathlib

/-!
Verification of the `open-rpc-diff` comparison engine (`src/main.rs`) against
its specification.

Strings are modelled as lists of characters (`Str`).  Rust's in-place mutation
of the schema tree is rendered functionally: each `&mut` visitor becomes a
function returning the rewritten value.  The external structural-diff library
(`json_schema_diff::diff`) is not part of this repository; it is modelled as an
abstract function parameter.  Its fallibility (the source calls `.unwrap()`,
which aborts the process on error) is modelled with `Except`: an `Except.error`
stands for the process aborting with that message.
-/

abbrev Str := List Char

/-- A JSON value, as carried opaquely in change payloads and schema leaves
(`serde_json::Value`).  Numbers are modelled as integers; no claim computes on
a numeric payload, it is only carried through. -/
inductive Value where
  | null
  | bool (b : Bool)
  | num (n : Int)
  | str (s : Str)
  | arr (l : List Value)
  | obj (l : List (Str × Value))

/-- `json_schema_diff::JsonSchemaType`. -/
inductive JsonSchemaType where
  | null
  | boolean
  | object
  | array
  | number
  | string
  | integer
deriving DecidableEq

/-- `schemars::schema::SubschemaValidation`: the combinator sub-schemas of a
schema object. -/
structure SubschemaValidation (S : Type) where
  all_of : Option (List S)
  any_of : Option (List S)
  one_of : Option (List S)
  not : Option S
  if_schema : Option S
  then_schema : Option S
  else_schema : Option S

/-- `schemars::schema::SingleOrVec`: a single item schema or a tuple of item
schemas. -/
inductive SingleOrVec (S : Type) where
  | single (s : S)
  | vec (l : List S)

/-- `schemars::schema::ArrayValidation` (the fields the rewriter visits; the
numeric bounds `max_items`, `min_items`, `unique_items` are never touched and
are bundled into `Leaf` at the `SchemaObject` level). -/
structure ArrayValidation (S : Type) where
  items : Option (SingleOrVec S)
  additional_items : Option S
  contains : Option S

/-- `schemars::schema::ObjectValidation`.  The `BTreeMap`-valued `properties`
and `pattern_properties` are modelled as association lists. -/
structure ObjectValidation (S : Type) where
  properties : List (Str × S)
  pattern_properties : List (Str × S)
  additional_properties : Option S
  property_names : Option S

/-- The fields of `schemars::schema::SchemaObject` that hold no nested schema
and that the reference rewriter never touches (`metadata`, `instance_type`,
`format`, `enum_values`, `const_value`, the numeric and string validations and
`extensions`), bundled as plain data. -/
structure Leaf where
  instance_type : Option Str
  format : Option Str
  enum_values : Option (List Value)
  const_value : Option Value

/-- `schemars::schema::Schema`: either a boolean constraint or a schema
object. -/
inductive Schema where
  | bool (b : Bool)
  | obj (leaf : Leaf) (reference : Option Str)
        (subschemas : Option (SubschemaValidation Schema))
        (array : Option (ArrayValidation Schema))
        (object : Option (ObjectValidation Schema))

/-- The reference rewrite applied to one reference string
(`src/main.rs:432-436`): a reference starting with `#/components/schemas/` is
moved into the `#/definitions/` namespace, any other reference is returned
unchanged. -/
def rewriteRef (s : Str) : Str :=
  if ("#/components/schemas/".toList).isPrefixOf s
  then "#/definitions/".toList ++ s.drop ("#/components/schemas/".toList).length
  else s

namespace rewrite_schema_references

mutual
/-- `rewrite_schema_references::schema` (`src/main.rs:415-495`): rewrite every
reference in a schema tree, visiting every combinator branch, every array-item
variant and every object sub-schema.  The in-place mutation of the source is
rendered as a pure function. -/
def schema : Schema → Schema
  | .bool b => .bool b
  | .obj leaf reference subschemas array object =>
    .obj leaf (refv reference) (subs subschemas) (arrayv array) (objectv object)

/-- The rewrite of the optional `reference` field. -/
def refv : Option Str → Option Str
  | none => none
  | some r => some (rewriteRef r)

/-- The traversal of the optional `SubschemaValidation` (all combinator
branches chained in `src/main.rs:437-456`). -/
def subs : Option (SubschemaValidation Schema) → Option (SubschemaValidation Schema)
  | none => none
  | some ⟨ao, an, oo, n, i, t, e⟩ =>
    some ⟨optList ao, optList an, optList oo, opt n, opt i, opt t, opt e⟩

/-- The traversal of the optional `ArrayValidation`
(`src/main.rs:457-475`). -/
def arrayv : Option (ArrayValidation Schema) → Option (ArrayValidation Schema)
  | none => none
  | some ⟨items, ai, c⟩ => some ⟨itemsv items, opt ai, opt c⟩

/-- The traversal of `items`: a single schema or each member of a tuple
(`src/main.rs:466-471`). -/
def itemsv : Option (SingleOrVec Schema) → Option (SingleOrVec Schema)
  | none => none
  | some (.single s) => some (.single (schema s))
  | some (.vec l) => some (.vec (list l))

/-- The traversal of the optional `ObjectValidation`
(`src/main.rs:476-492`). -/
def objectv : Option (ObjectValidation Schema) → Option (ObjectValidation Schema)
  | none => none
  | some ⟨p, pp, ap, pn⟩ => some ⟨props p, props pp, opt ap, opt pn⟩

/-- Rewrite under an optional sub-schema. -/
def opt : Option Schema → Option Schema
  | none => none
  | some s => some (schema s)

/-- Rewrite each schema in a list. -/
def list : List Schema → List Schema
  | [] => []
  | s :: rest => schema s :: list rest

/-- Rewrite under an optional list of sub-schemas. -/
def optList : Option (List Schema) → Option (List Schema)
  | none => none
  | some l => some (list l)

/-- Rewrite the schema of every named property. -/
def props : List (Str × Schema) → List (Str × Schema)
  | [] => []
  | (k, s) :: rest => (k, schema s) :: props rest
end

end rewrite_schema_references

mutual
/-- All reference strings occurring in a schema tree, in traversal order.  The
traversal enumerates exactly the positions `rewrite_schema_references::schema`
visits: the node reference, every combinator branch, single or tuple array
items, additional items, contains, properties, pattern properties, additional
properties and property names. -/
def refsSchema : Schema → List Str
  | .bool _ => []
  | .obj _ reference subschemas array object =>
    reference.toList ++ refsSub subschemas ++ refsArr array ++ refsObj object

/-- References under an optional `SubschemaValidation`. -/
def refsSub : Option (SubschemaValidation Schema) → List Str
  | none => []
  | some ⟨ao, an, oo, n, i, t, e⟩ =>
    refsOptList ao ++ refsOptList an ++ refsOptList oo ++
      refsOpt n ++ refsOpt i ++ refsOpt t ++ refsOpt e

/-- References under an optional `ArrayValidation`. -/
def refsArr : Option (ArrayValidation Schema) → List Str
  | none => []
  | some ⟨items, ai, c⟩ => refsItems items ++ refsOpt ai ++ refsOpt c

/-- References under optional array items. -/
def refsItems : Option (SingleOrVec Schema) → List Str
  | none => []
  | some (.single s) => refsSchema s
  | some (.vec l) => refsList l

/-- References under an optional `ObjectValidation`. -/
def refsObj : Option (ObjectValidation Schema) → List Str
  | none => []
  | some ⟨p, pp, ap, pn⟩ => refsProps p ++ refsProps pp ++ refsOpt ap ++ refsOpt pn

/-- References under an optional sub-schema. -/
def refsOpt : Option Schema → List Str
  | none => []
  | some s => refsSchema s

/-- References under a list of sub-schemas. -/
def refsList : List Schema → List Str
  | [] => []
  | s :: rest => refsSchema s ++ refsList rest

/-- References under an optional list of sub-schemas. -/
def refsOptList : Option (List Schema) → List Str
  | none => []
  | some l => refsList l

/-- References under the named properties. -/
def refsProps : List (Str × Schema) → List Str
  | [] => []
  | (_, s) :: rest => refsSchema s ++ refsProps rest
end

mutual
/-- The reference-free skeleton of a schema tree: the same tree with every
reference (at every traversal position) replaced by `none`.  Everything that
is not a reference — including every `Leaf` — is kept. -/
def eraseSchema : Schema → Schema
  | .bool b => .bool b
  | .obj leaf _ subschemas array object =>
    .obj leaf none (eraseSub subschemas) (eraseArr array) (eraseObj object)

/-- Skeleton under an optional `SubschemaValidation`. -/
def eraseSub : Option (SubschemaValidation Schema) → Option (SubschemaValidation Schema)
  | none => none
  | some ⟨ao, an, oo, n, i, t, e⟩ =>
    some ⟨eraseOptList ao, eraseOptList an, eraseOptList oo,
      eraseOpt n, eraseOpt i, eraseOpt t, eraseOpt e⟩

/-- Skeleton under an optional `ArrayValidation`. -/
def eraseArr : Option (ArrayValidation Schema) → Option (ArrayValidation Schema)
  | none => none
  | some ⟨items, ai, c⟩ => some ⟨eraseItems items, eraseOpt ai, eraseOpt c⟩

/-- Skeleton under optional array items. -/
def eraseItems : Option (SingleOrVec Schema) → Option (SingleOrVec Schema)
  | none => none
  | some (.single s) => some (.single (eraseSchema s))
  | some (.vec l) => some (.vec (eraseList l))

/-- Skeleton under an optional `ObjectValidation`. -/
def eraseObj : Option (ObjectValidation Schema) → Option (ObjectValidation Schema)
  | none => none
  | some ⟨p, pp, ap, pn⟩ => some ⟨eraseProps p, eraseProps pp, eraseOpt ap, eraseOpt pn⟩

/-- Skeleton under an optional sub-schema. -/
def eraseOpt : Option Schema → Option Schema
  | none => none
  | some s => some (eraseSchema s)

/-- Skeleton under a list of sub-schemas. -/
def eraseList : List Schema → List Schema
  | [] => []
  | s :: rest => eraseSchema s :: eraseList rest

/-- Skeleton under an optional list of sub-schemas. -/
def eraseOptList : Option (List Schema) → Option (List Schema)
  | none => none
  | some l => some (eraseList l)

/-- Skeleton under the named properties. -/
def eraseProps : List (Str × Schema) → List (Str × Schema)
  | [] => []
  | (k, s) :: rest => (k, eraseSchema s) :: eraseProps rest
end

/-- `openrpc_types::ContentDescriptor`.  The `extensions` field (an opaque
JSON map the engine never reads) is omitted. -/
structure ContentDescriptor where
  name : Str
  summary : Option Str
  description : Option Str
  required : Option Bool
  schema : Schema
  deprecated : Option Bool

/-- `NO_DESCRIPTOR` (`src/main.rs:23-31`): the absent-descriptor sentinel —
name empty, not required, schema the never-matching boolean schema. -/
def NO_DESCRIPTOR : ContentDescriptor :=
  { name := [], summary := none, description := none, required := some false,
    schema := .bool false, deprecated := none }

/-- `json_schema_diff::ChangeKind`: the raw structural-diff operations of the
external library.  Floating-point range payloads are modelled as integers;
no code in this repository inspects them, they are only carried through. -/
inductive RawChangeKind where
  | typeAdd (added : JsonSchemaType)
  | typeRemove (removed : JsonSchemaType)
  | constAdd (added : Value)
  | constRemove (removed : Value)
  | propertyAdd (lhs_additional_properties : Bool) (added : Str)
  | propertyRemove (lhs_additional_properties : Bool) (removed : Str)
  | rangeAdd (added : Int)
  | rangeRemove (removed : Int)
  | rangeChange (old_value : Int) (new_value : Int)
  | tupleToArray (old_length : Nat)
  | arrayToTuple (new_length : Nat)
  | tupleChange (new_length : Nat)
  | requiredRemove (property : Str)
  | requiredAdd (property : Str)

/-- `json_schema_diff::Change`: one raw structural-diff operation at a path. -/
structure RawChange where
  path : Str
  change : RawChangeKind

/-- `RequiredChange` (`src/main.rs:136-143`): `left` means the left descriptor
was required but the right was not (requiredness lost on the right); `right`
means the converse (requiredness gained on the right). -/
inductive RequiredChange where
  | left
  | right
deriving DecidableEq

/-- `itertools::EitherOrBoth`. -/
inductive EitherOrBoth (α β : Type) where
  | left (a : α)
  | right (b : β)
  | both (a : α) (b : β)

/-- `EitherOrBoth::left_and_right`. -/
def EitherOrBoth.left_and_right {α β : Type} : EitherOrBoth α β → Option α × Option β
  | .left a => (some a, none)
  | .right b => (none, some b)
  | .both a b => (some a, some b)

/-- The value fed to the structural-diff library: a `schemars` `RootSchema`
combining one schema with one definitions dictionary (the `json` helper,
`src/main.rs:151-158`).  The JSON serialization itself is external and not
modelled; the claims need only that the combined value is determined by the
schema together with its definitions. -/
structure RootSchemaV where
  schema : Schema
  definitions : List (Str × Schema)

/-- The `json` helper of `diff` (`src/main.rs:151-158`). -/
def json (schema : Schema) (definitions : List (Str × Schema)) : RootSchemaV :=
  ⟨schema, definitions⟩

/-- The external `json_schema_diff::diff` function, abstract.  An
`Except.error` models its `Err` case, which the source `.unwrap()`s — i.e.
the process aborts with that message. -/
abbrev SchemaDiffFn := RootSchemaV → RootSchemaV → Except Str (List RawChange)

/-- The requiredness comparison inside `diff` (`src/main.rs:167-175`),
extracted as a named function: both flags default to false when absent. -/
def requiredChange (l r : Option Bool) : Option RequiredChange :=
  match l.getD false, r.getD false with
  | true, true => none
  | true, false => some .left
  | false, true => some .right
  | false, false => none

/-- `diff` (`src/main.rs:145-182`): the Descriptor Differ.  The non-emptiness
guard `nunny::Vec::new(..).ok()` is modelled by the match on the change
list. -/
def diff (sd : SchemaDiffFn) (left right : ContentDescriptor)
    (left_definitions right_definitions : List (Str × Schema)) :
    Except Str (Option (EitherOrBoth (List RawChange) RequiredChange)) :=
  match sd (json left.schema left_definitions) (json right.schema right_definitions) with
  | .error e => .error e
  | .ok changes =>
    let schema_change : Option (List RawChange) :=
      match changes with
      | [] => none
      | it => some it
    match requiredChange left.required right.required, schema_change with
    | none, none => .ok none
    | none, some it => .ok (some (.left it))
    | some it, none => .ok (some (.right it))
    | some r, some s => .ok (some (.both s r))

/-- The requiredness component of a descriptor diff. -/
def requiredPart : Option (EitherOrBoth (List RawChange) RequiredChange) →
    Option RequiredChange
  | none => none
  | some (.left _) => none
  | some (.right rc) => some rc
  | some (.both _ rc) => some rc

namespace summary

/-- `summary::ChangeKind` (`src/main.rs:276-293`): the closed change-kind
taxonomy. -/
inductive ChangeKind where
  | typeAdd
  | typeRemove
  | constAdd
  | constRemove
  | propertyAdd
  | propertyRemove
  | rangeAdd
  | rangeRemove
  | rangeChange
  | tupleToArray
  | arrayToTuple
  | tupleChange
  | requiredRemove
  | requiredAdd

/-- `summary::Subject` (`src/main.rs:268-274`). -/
inductive Subject where
  | type (t : JsonSchemaType)
  | const (v : Value)
  | property (p : Str)

/-- `summary::Change` (`src/main.rs:259-266`). -/
structure Change where
  path : Str
  kind : ChangeKind
  of : Option Subject

/-- The Change Classifier: `impl From<json_schema_diff::Change> for
summary::Change` (`src/main.rs:295-340`). -/
def changeFrom (value : RawChange) : Change :=
  let p :=
    match value.change with
    | .typeAdd added => (ChangeKind.typeAdd, some (Subject.type added))
    | .typeRemove removed => (ChangeKind.typeRemove, some (Subject.type removed))
    | .constAdd added => (ChangeKind.constAdd, some (Subject.const added))
    | .constRemove removed => (ChangeKind.constRemove, some (Subject.const removed))
    | .propertyAdd _ added => (ChangeKind.propertyAdd, some (Subject.property added))
    | .propertyRemove _ removed => (ChangeKind.propertyRemove, some (Subject.property removed))
    | .rangeAdd _ => (ChangeKind.rangeAdd, none)
    | .rangeRemove _ => (ChangeKind.rangeRemove, none)
    | .rangeChange _ _ => (ChangeKind.rangeChange, none)
    | .tupleToArray _ => (ChangeKind.tupleToArray, none)
    | .arrayToTuple _ => (ChangeKind.arrayToTuple, none)
    | .tupleChange _ => (ChangeKind.tupleChange, none)
    | .requiredRemove property => (ChangeKind.requiredRemove, some (Subject.property property))
    | .requiredAdd property => (ChangeKind.requiredAdd, some (Subject.property property))
  { path := value.path, kind := p.1, of := p.2 }

/-- `summary::ContentDescriptorChange` (`src/main.rs:251-257`). -/
structure ContentDescriptorChange where
  changes : List Change
  required : Option RequiredChange

/-- `impl From<EitherOrBoth<NonEmpty<Vec<Change>>, RequiredChange>> for
ContentDescriptorChange` (`src/main.rs:342-356`). -/
def cdcFrom (value : EitherOrBoth (List RawChange) RequiredChange) :
    ContentDescriptorChange :=
  let p := value.left_and_right
  { changes := (p.1.map (List.map changeFrom)).getD [],
    required := p.2 }

/-- `summary::MethodChange` (`src/main.rs:243-249`): `parameter` is a
position-keyed map, modelled as a list of pairs in ascending position
order. -/
structure MethodChange where
  parameter : List (Nat × ContentDescriptorChange)
  result : Option ContentDescriptorChange

/-- `summary::Summary` (`src/main.rs:231-241`): `different` is a name-keyed
map, modelled as an association list. -/
structure Summary where
  equivalent : List Str
  different : List (Str × MethodChange)
  left : List Str
  right : List Str

end summary

/-- `Itertools::pad_using` to length `n` with the absent-descriptor sentinel
(`src/main.rs:64` and `68`): padding is appended at the end. -/
def padTo (n : Nat) (xs : List ContentDescriptor) : List ContentDescriptor :=
  xs ++ List.replicate (n - xs.length) NO_DESCRIPTOR

/-- Sequential fallible map: the evaluation of an iterator of fallible
computations that aborts at the first failure (a Rust iterator whose body can
panic). -/
def mapE {α β : Type} (g : α → Except Str β) : List α → Except Str (List β)
  | [] => .ok []
  | x :: xs =>
    match g x with
    | .error e => .error e
    | .ok y =>
      match mapE g xs with
      | .error e => .error e
      | .ok ys => .ok (y :: ys)

/-- One iteration of the main loop for one common method name
(`src/main.rs:56-99`): the Signature Pairing Engine.  `Except.ok none` is the
compatible verdict.  The iterator chain `pad.zip(pad).enumerate().flat_map`
is rendered as a fallible map of the differ over the zipped padded lists
followed by a filter of the non-empty results keyed by index. -/
def pairMethod (sd : SchemaDiffFn) (left_definitions right_definitions : List (Str × Schema))
    (lm rm : List ContentDescriptor × Option ContentDescriptor) :
    Except Str (Option summary.MethodChange) :=
  let common_length := max lm.1.length rm.1.length
  match mapE (fun p => diff sd p.1 p.2 left_definitions right_definitions)
      ((padTo common_length lm.1).zip (padTo common_length rm.1)) with
  | .error e => .error e
  | .ok results =>
    let param_diffs := results.enum.filterMap (fun p => p.2.map (fun it => (p.1, it)))
    match diff sd (lm.2.getD NO_DESCRIPTOR) (rm.2.getD NO_DESCRIPTOR)
        left_definitions right_definitions with
    | .error e => .error e
    | .ok result_diff =>
      match param_diffs, result_diff with
      | [], none => .ok none
      | pds, rdf =>
        .ok (some { parameter := pds.map (fun p => (p.1, summary.cdcFrom p.2)),
                    result := rdf.map summary.cdcFrom })

/-- `BTreeSet::difference`: the elements of `l` not in `r`.  Sets of method
names are modelled as duplicate-free lists. -/
def setDifference (l r : List Str) : List Str :=
  l.filter (fun x => decide (x ∉ r))

/-- `BTreeSet::intersection`: the elements of `l` also in `r`. -/
def setIntersection (l r : List Str) : List Str :=
  l.filter (fun x => decide (x ∈ r))

/-- `venn` (`src/main.rs:184-192`): the three-way partition (only-left,
common, only-right) of two method-name sets. -/
def venn (l r : List Str) : List Str × List Str × List Str :=
  (setDifference l r, setIntersection l r, setDifference r l)

/-- `BTreeMap::insert` on an association-list model: replaces the value at an
existing key, otherwise appends.  The sorted iteration order of the Rust
`BTreeMap` is not needed by any claim and is not modelled. -/
def btInsert {V : Type} (k : Str) (v : V) : List (Str × V) → List (Str × V)
  | [] => [(k, v)]
  | (q, w) :: rest => if k = q then (k, v) :: rest else (q, w) :: btInsert k v rest

/-- `collect::<BTreeMap<_, _>>()`: a fold of inserts, so a later pair with the
same key replaces an earlier one. -/
def btCollect {V : Type} (l : List (Str × V)) : List (Str × V) :=
  l.foldl (fun m p => btInsert p.1 p.2 m) []

/-- `BTreeMap` lookup. -/
def btLookup {V : Type} (k : Str) : List (Str × V) → Option V
  | [] => none
  | (q, w) :: rest => if k = q then some w else btLookup k rest

/-- `BTreeMap::keys`. -/
def btKeys {V : Type} (m : List (Str × V)) : List Str :=
  m.map Prod.fst

/-- `openrpc_types::Method`: the fields the engine reads (`name`, `params`,
`result`).  The ten remaining fields are pattern-matched away unread
everywhere in the source and are omitted. -/
structure Method where
  name : Str
  params : List ContentDescriptor
  result : Option ContentDescriptor

/-- `method` (`src/main.rs:194-211`): the Method Extractor for a single
method. -/
def method (m : Method) : Str × (List ContentDescriptor × Option ContentDescriptor) :=
  (m.name, (m.params, m.result))

/-- `openrpc_types::Components` (the fields the engine reads). -/
structure Components where
  content_descriptors : Option (List (Str × ContentDescriptor))
  schemas : Option (List (Str × Schema))

/-- `openrpc_types::OpenRPC` (the fields the engine reads). -/
structure OpenRPC where
  methods : List Method
  components : Option Components

namespace rewrite_schema_references

/-- `rewrite_schema_references::content_descriptor` (`src/main.rs:496-507`). -/
def content_descriptor (node : ContentDescriptor) : ContentDescriptor :=
  { node with schema := schema node.schema }

/-- `rewrite_schema_references::open_rpc` (`src/main.rs:367-413`): rewrite the
references in every method parameter and result, in every component content
descriptor and in every component schema. -/
def open_rpc (node : OpenRPC) : OpenRPC :=
  { methods := node.methods.map (fun m =>
      { m with params := m.params.map content_descriptor,
               result := m.result.map content_descriptor }),
    components := node.components.map (fun c =>
      { content_descriptors :=
          c.content_descriptors.map (List.map (fun p => (p.1, content_descriptor p.2))),
        schemas := c.schemas.map (List.map (fun p => (p.1, schema p.2))) }) }

end rewrite_schema_references

/-- The outcome the file system and parser deliver for one path: the file
cannot be opened, it cannot be deserialized, or it parses into a document.
This is the external collaborator behind `read` (`src/main.rs:213-219`). -/
inductive FileOutcome where
  | unopenable
  | unparsable
  | ok (doc : OpenRPC)

/-- `read` (`src/main.rs:213-219`): the `anyhow` context attached to each of
the two failure cases names the offending path. -/
def read (fs : Str → FileOutcome) (path : Str) : Except Str OpenRPC :=
  match fs path with
  | .unopenable => .error ("couldn\x27t open file ".toList ++ path)
  | .unparsable => .error ("couldn\x27t deserialize file ".toList ++ path)
  | .ok doc => .ok doc

/-- `prepare` (`src/main.rs:114-134`): read a document, normalize its
references, and extract the definitions dictionary and the name-keyed method
map. -/
def prepare (fs : Str → FileOutcome) (path : Str) :
    Except Str ((List (Str × Schema)) ×
      List (Str × (List ContentDescriptor × Option ContentDescriptor))) :=
  match read fs path with
  | .error e => .error e
  | .ok document =>
    let document := rewrite_schema_references.open_rpc document
    let definitions := (document.components.getD ⟨none, none⟩).schemas.getD []
    let methods := btCollect (document.methods.map method)
    .ok (definitions, methods)

/-- The `for method in common` loop of `main` (`src/main.rs:53-100`),
accumulating the `different` map and the `compatible` list.  The `BTreeMap`
indexing `left_methods[&method]` cannot miss for a common name; the model
uses a lookup with an irrelevant default. -/
def mainLoop (sd : SchemaDiffFn) (left_definitions right_definitions : List (Str × Schema))
    (left_methods right_methods :
      List (Str × (List ContentDescriptor × Option ContentDescriptor))) :
    List Str → (List (Str × summary.MethodChange) × List Str) →
      Except Str (List (Str × summary.MethodChange) × List Str)
  | [], acc => .ok acc
  | m :: rest, acc =>
    match pairMethod sd left_definitions right_definitions
        ((btLookup m left_methods).getD ([], none))
        ((btLookup m right_methods).getD ([], none)) with
    | .error e => .error e
    | .ok none =>
      mainLoop sd left_definitions right_definitions left_methods right_methods
        rest (acc.1, acc.2 ++ [m])
    | .ok (some mc) =>
      mainLoop sd left_definitions right_definitions left_methods right_methods
        rest (acc.1 ++ [(m, mc)], acc.2)

/-- `main` (`src/main.rs:39-112`) after argument parsing and before report
rendering: load and prepare both documents, partition the method names, pair
and diff every common method, and assemble the `Summary`.  An `Except.error`
models process termination with a non-zero status (an `anyhow` error or a
panic) before any summary is produced. -/
def mainE (fs : Str → FileOutcome) (sd : SchemaDiffFn) (left right : Str) :
    Except Str summary.Summary :=
  match prepare fs left with
  | .error e => .error e
  | .ok (left_definitions, left_methods) =>
    match prepare fs right with
    | .error e => .error e
    | .ok (right_definitions, right_methods) =>
      let left_names := btKeys left_methods
      let right_names := btKeys right_methods
      let vp := venn left_names right_names
      match mainLoop sd left_definitions right_definitions left_methods right_methods
          vp.2.1 ([], []) with
      | .error e => .error e
      | .ok st =>
        .ok { equivalent := st.2, different := st.1, left := vp.1, right := vp.2.2 }

/-- Lift a total structural-diff function into the fallible interface: every
library call succeeds. -/
def toE (f : RootSchemaV → RootSchemaV → List RawChange) : SchemaDiffFn :=
  fun a b => .ok (f a b)

/-- The descriptor differ under a total structural-diff function: the value
`diff` returns when the library call succeeds. -/
def diffT (f : RootSchemaV → RootSchemaV → List RawChange)
    (left right : ContentDescriptor)
    (left_definitions right_definitions : List (Str × Schema)) :
    Option (EitherOrBoth (List RawChange) RequiredChange) :=
  match diff (toE f) left right left_definitions right_definitions with
  | .ok o => o
  | .error _ => none

/-- The Signature Pairing Engine as the specification words it (§4.4): let N
be the maximum of the two parameter-list lengths; pad the shorter list at its
end with the absent-descriptor sentinel until both have length N; diff the
descriptors at each position 0..N and keep only the positions with a
non-empty diff, keyed by position; diff the return descriptors with the
sentinel substituted for an absent return; the method is compatible — no
Method Change — exactly when the kept collection and the return diff are both
empty.  This definition follows the specification text and is proved equal to
the source embedding `pairMethod`. -/
def pairSpec (f : RootSchemaV → RootSchemaV → List RawChange)
    (left_definitions right_definitions : List (Str × Schema))
    (lm rm : List ContentDescriptor × Option ContentDescriptor) :
    Option summary.MethodChange :=
  let n := max lm.1.length rm.1.length
  let pl := lm.1 ++ List.replicate (n - lm.1.length) NO_DESCRIPTOR
  let pr := rm.1 ++ List.replicate (n - rm.1.length) NO_DESCRIPTOR
  let kept := (List.range n).filterMap (fun i =>
    (diffT f (pl.getD i NO_DESCRIPTOR) (pr.getD i NO_DESCRIPTOR)
        left_definitions right_definitions).map (fun it => (i, it)))
  let ret := diffT f (lm.2.getD NO_DESCRIPTOR) (rm.2.getD NO_DESCRIPTOR)
      left_definitions right_definitions
  match kept, ret with
  | [], none => none
  | pds, rdf =>
    some { parameter := pds.map (fun p => (p.1, summary.cdcFrom p.2)),
           result := rdf.map summary.cdcFrom }

/-- Swap the left/right role in a requiredness change. -/
def swapRequired : RequiredChange → RequiredChange
  | .left => .right
  | .right => .left

/-- Swap the left/right role in one raw structural-diff operation: additions
become removals with the same subject and vice versa; range endpoints and
tuple/array directions are mirrored. -/
def swapKind : RawChangeKind → RawChangeKind
  | .typeAdd t => .typeRemove t
  | .typeRemove t => .typeAdd t
  | .constAdd v => .constRemove v
  | .constRemove v => .constAdd v
  | .propertyAdd b p => .propertyRemove b p
  | .propertyRemove b p => .propertyAdd b p
  | .rangeAdd v => .rangeRemove v
  | .rangeRemove v => .rangeAdd v
  | .rangeChange o n => .rangeChange n o
  | .tupleToArray n => .arrayToTuple n
  | .arrayToTuple n => .tupleToArray n
  | .tupleChange n => .tupleChange n
  | .requiredRemove p => .requiredAdd p
  | .requiredAdd p => .requiredRemove p

/-- Swap the left/right role in one raw change, keeping its path. -/
def swapChange (c : RawChange) : RawChange :=
  ⟨c.path, swapKind c.change⟩

/-- Swap the left/right role in an entire descriptor diff. -/
def swapEOB : EitherOrBoth (List RawChange) RequiredChange →
    EitherOrBoth (List RawChange) RequiredChange
  | .left cs => .left (cs.map swapChange)
  | .right rc => .right (swapRequired rc)
  | .both cs rc => .both (cs.map swapChange) (swapRequired rc)

/-- A schema tree is canonical when none of its references lies in the
document-components namespace. -/
def canonicalSchema (s : Schema) : Prop :=
  ∀ r ∈ refsSchema s, ("#/components/schemas/".toList).isPrefixOf r = false

/-- An empty leaf payload, used by the concrete witnesses. -/
def exLeaf : Leaf :=
  { instance_type := none, format := none, enum_values := none, const_value := none }

/-- A concrete schema holding one document-components reference. -/
def exRefSchema : Schema :=
  .obj exLeaf (some ("#/components/schemas/Foo".toList)) none none none

/-- A concrete schema already in the canonical namespace. -/
def exCanonSchema : Schema :=
  .obj exLeaf (some ("#/definitions/Foo".toList)) none none none

/-- A concrete required parameter descriptor. -/
def exCD : ContentDescriptor :=
  { name := "x".toList, summary := none, description := none,
    required := some true, schema := .bool true, deprecated := none }

/-- A concrete optional descriptor with no requiredness flag. -/
def exCD2 : ContentDescriptor :=
  { name := "y".toList, summary := none, description := none,
    required := none, schema := .bool true, deprecated := none }

/-- A concrete method `foo(x)` with no return value. -/
def exMethod : Method :=
  { name := "foo".toList, params := [exCD], result := none }

/-- A concrete document with the single method `foo`. -/
def exDoc : OpenRPC :=
  { methods := [exMethod], components := none }

/-- A file system on which every path parses into `exDoc`. -/
def exFs : Str → FileOutcome := fun _ => .ok exDoc

/-- A file system on which no file can be opened. -/
def exFsBad : Str → FileOutcome := fun _ => .unopenable

/-- The always-empty total structural diff. -/
def fEmpty : RootSchemaV → RootSchemaV → List RawChange := fun _ _ => []

/-- A structural diff that always fails, with a message that names no file
path (modelling a precondition violation inside the external library). -/
def sdPanic : SchemaDiffFn := fun _ _ => .error ("structural diff failed".toList)

/-- A concrete left path. -/
def exLeftPath : Str := "left.json".toList

/-- A concrete right path. -/
def exRightPath : Str := "right.json".toList

/-- A concrete left name set. -/
def exNamesL : List Str := ["a".toList, "b".toList]

/-- A concrete right name set. -/
def exNamesR : List Str := ["b".toList, "c".toList]

/-- Two concrete methods sharing one name, with different signatures. -/
def exMethodDup1 : Method :=
  { name := "dup".toList, params := [exCD, exCD2], result := none }

/-- The second method of the duplicate pair. -/
def exMethodDup2 : Method :=
  { name := "dup".toList, params := [], result := some exCD }

/-- A reference in the document-components namespace is moved to the
canonical local-definitions namespace, keeping the remainder. -/
theorem rewriteRef_matched (s : Str)
    (h : ("#/components/schemas/".toList).isPrefixOf s = true) :
    rewriteRef s =
      "#/definitions/".toList ++ s.drop ("#/components/schemas/".toList).length := by
  unfold rewriteRef
  split
  · rfl
  · rename_i hn
    rw [h] at hn

/-- A reference outside the document-components namespace is untouched. -/
theorem rewriteRef_unmatched (s : Str)
    (h : ("#/components/schemas/".toList).isPrefixOf s = false) :
    rewriteRef s = s := by
  unfold rewriteRef
  split
  · rename_i hy
    rw [h] at hy
    simp at hy
  · rfl

/-- A rewritten reference is never in the document-components namespace. -/
theorem rewriteRef_canonical (s : Str) :
    ("#/components/schemas/".toList).isPrefixOf (rewriteRef s) = false := by
  unfold rewriteRef
  split
  · simp [List.isPrefixOf]
  · rename_i h
    exact Bool.eq_false_iff.mpr h

/-- The single-reference rewrite is idempotent. -/
theorem rewriteRef_idem (s : Str) : rewriteRef (rewriteRef s) = rewriteRef s := by
  have h := rewriteRef_canonical s
  rw [rewriteRef_unmatched _ h]

mutual
/-- The rewriter maps `rewriteRef` over the references of a schema tree. -/
theorem refs_schema_rw (s : Schema) :
    refsSchema (rewrite_schema_references.schema s) = (refsSchema s).map rewriteRef := by
  cases s with
  | bool b => rfl
  | obj leaf reference subschemas array object =>
    simp only [rewrite_schema_references.schema, refsSchema, List.map_append]
    rw [refs_sub_rw subschemas, refs_arr_rw array, refs_obj_rw object]
    cases reference with
    | none => rfl
    | some r => rfl

theorem refs_sub_rw (x : Option (SubschemaValidation Schema)) :
    refsSub (rewrite_schema_references.subs x) = (refsSub x).map rewriteRef := by
  cases x with
  | none => rfl
  | some v =>
    obtain ⟨ao, an, oo, n, i, t, e⟩ := v
    simp only [rewrite_schema_references.subs, refsSub, List.map_append]
    rw [refs_optList_rw ao, refs_optList_rw an, refs_optList_rw oo,
      refs_opt_rw n, refs_opt_rw i, refs_opt_rw t, refs_opt_rw e]

theorem refs_arr_rw (x : Option (ArrayValidation Schema)) :
    refsArr (rewrite_schema_references.arrayv x) = (refsArr x).map rewriteRef := by
  cases x with
  | none => rfl
  | some v =>
    obtain ⟨items, ai, c⟩ := v
    simp only [rewrite_schema_references.arrayv, refsArr, List.map_append]
    rw [refs_items_rw items, refs_opt_rw ai, refs_opt_rw c]

theorem refs_items_rw (x : Option (SingleOrVec Schema)) :
    refsItems (rewrite_schema_references.itemsv x) = (refsItems x).map rewriteRef := by
  cases x with
  | none => rfl
  | some v =>
    cases v with
    | single s => simp only [rewrite_schema_references.itemsv, refsItems]; rw [refs_schema_rw s]
    | vec l => simp only [rewrite_schema_references.itemsv, refsItems]; rw [refs_list_rw l]

theorem refs_obj_rw (x : Option (ObjectValidation Schema)) :
    refsObj (rewrite_schema_references.objectv x) = (refsObj x).map rewriteRef := by
  cases x with
  | none => rfl
  | some v =>
    obtain ⟨p, pp, ap, pn⟩ := v
    simp only [rewrite_schema_references.objectv, refsObj, List.map_append]
    rw [refs_props_rw p, refs_props_rw pp, refs_opt_rw ap, refs_opt_rw pn]

theorem refs_opt_rw (x : Option Schema) :
    refsOpt (rewrite_schema_references.opt x) = (refsOpt x).map rewriteRef := by
  cases x with
  | none => rfl
  | some s => simp only [rewrite_schema_references.opt, refsOpt]; rw [refs_schema_rw s]

theorem refs_list_rw (l : List Schema) :
    refsList (rewrite_schema_references.list l) = (refsList l).map rewriteRef := by
  cases l with
  | nil => rfl
  | cons s rest =>
    simp only [rewrite_schema_references.list, refsList, List.map_append]
    rw [refs_schema_rw s, refs_list_rw rest]

theorem refs_optList_rw (x : Option (List Schema)) :
    refsOptList (rewrite_schema_references.optList x) = (refsOptList x).map rewriteRef := by
  cases x with
  | none => rfl
  | some l => simp only [rewrite_schema_references.optList, refsOptList]; rw [refs_list_rw l]

theorem refs_props_rw (l : List (Str × Schema)) :
    refsProps (rewrite_schema_references.props l) = (refsProps l).map rewriteRef := by
  cases l with
  | nil => rfl
  | cons p rest =>
    obtain ⟨k, s⟩ := p
    simp only [rewrite_schema_references.props, refsProps, List.map_append]
    rw [refs_schema_rw s, refs_props_rw rest]
end

mutual
/-- The rewriter changes nothing but references: the reference-free skeleton
is preserved. -/
theorem erase_schema_rw (s : Schema) :
    eraseSchema (rewrite_schema_references.schema s) = eraseSchema s := by
  cases s with
  | bool b => rfl
  | obj leaf reference subschemas array object =>
    simp only [rewrite_schema_references.schema, eraseSchema]
    rw [erase_sub_rw subschemas, erase_arr_rw array, erase_obj_rw object]

theorem erase_sub_rw (x : Option (SubschemaValidation Schema)) :
    eraseSub (rewrite_schema_references.subs x) = eraseSub x := by
  cases x with
  | none => rfl
  | some v =>
    obtain ⟨ao, an, oo, n, i, t, e⟩ := v
    simp only [rewrite_schema_references.subs, eraseSub]
    rw [erase_optList_rw ao, erase_optList_rw an, erase_optList_rw oo,
      erase_opt_rw n, erase_opt_rw i, erase_opt_rw t, erase_opt_rw e]

theorem erase_arr_rw (x : Option (ArrayValidation Schema)) :
    eraseArr (rewrite_schema_references.arrayv x) = eraseArr x := by
  cases x with
  | none => rfl
  | some v =>
    obtain ⟨items, ai, c⟩ := v
    simp only [rewrite_schema_references.arrayv, eraseArr]
    rw [erase_items_rw items, erase_opt_rw ai, erase_opt_rw c]

theorem erase_items_rw (x : Option (SingleOrVec Schema)) :
    eraseItems (rewrite_schema_references.itemsv x) = eraseItems x := by
  cases x with
  | none => rfl
  | some v =>
    cases v with
    | single s => simp only [rewrite_schema_references.itemsv, eraseItems]; rw [erase_schema_rw s]
    | vec l => simp only [rewrite_schema_references.itemsv, eraseItems]; rw [erase_list_rw l]

theorem erase_obj_rw (x : Option (ObjectValidation Schema)) :
    eraseObj (rewrite_schema_references.objectv x) = eraseObj x := by
  cases x with
  | none => rfl
  | some v =>
    obtain ⟨p, pp, ap, pn⟩ := v
    simp only [rewrite_schema_references.objectv, eraseObj]
    rw [erase_props_rw p, erase_props_rw pp, erase_opt_rw ap, erase_opt_rw pn]

theorem erase_opt_rw (x : Option Schema) :
    eraseOpt (rewrite_schema_references.opt x) = eraseOpt x := by
  cases x with
  | none => rfl
  | some s => simp only [rewrite_schema_references.opt, eraseOpt]; rw [erase_schema_rw s]

theorem erase_list_rw (l : List Schema) :
    eraseList (rewrite_schema_references.list l) = eraseList l := by
  cases l with
  | nil => rfl
  | cons s rest =>
    simp only [rewrite_schema_references.list, eraseList]
    rw [erase_schema_rw s, erase_list_rw rest]

theorem erase_optList_rw (x : Option (List Schema)) :
    eraseOptList (rewrite_schema_references.optList x) = eraseOptList x := by
  cases x with
  | none => rfl
  | some l => simp only [rewrite_schema_references.optList, eraseOptList]; rw [erase_list_rw l]

theorem erase_props_rw (l : List (Str × Schema)) :
    eraseProps (rewrite_schema_references.props l) = eraseProps l := by
  cases l with
  | nil => rfl
  | cons p rest =>
    obtain ⟨k, s⟩ := p
    simp only [rewrite_schema_references.props, eraseProps]
    rw [erase_schema_rw s, erase_props_rw rest]
end

mutual
/-- The rewriter is idempotent on schema trees. -/
theorem rw_schema_idem (s : Schema) :
    rewrite_schema_references.schema (rewrite_schema_references.schema s) =
      rewrite_schema_references.schema s := by
  cases s with
  | bool b => rfl
  | obj leaf reference subschemas array object =>
    simp only [rewrite_schema_references.schema]
    rw [rw_refv_idem reference, rw_sub_idem subschemas, rw_arr_idem array, rw_obj_idem object]

theorem rw_refv_idem (r : Option Str) :
    rewrite_schema_references.refv (rewrite_schema_references.refv r) =
      rewrite_schema_references.refv r := by
  cases r with
  | none => rfl
  | some s => simp only [rewrite_schema_references.refv, rewriteRef_idem]

theorem rw_sub_idem (x : Option (SubschemaValidation Schema)) :
    rewrite_schema_references.subs (rewrite_schema_references.subs x) =
      rewrite_schema_references.subs x := by
  cases x with
  | none => rfl
  | some v =>
    obtain ⟨ao, an, oo, n, i, t, e⟩ := v
    simp only [rewrite_schema_references.subs]
    rw [rw_optList_idem ao, rw_optList_idem an, rw_optList_idem oo, rw_opt_idem n,
      rw_opt_idem i, rw_opt_idem t, rw_opt_idem e]

theorem rw_arr_idem (x : Option (ArrayValidation Schema)) :
    rewrite_schema_references.arrayv (rewrite_schema_references.arrayv x) =
      rewrite_schema_references.arrayv x := by
  cases x with
  | none => rfl
  | some v =>
    obtain ⟨items, ai, c⟩ := v
    simp only [rewrite_schema_references.arrayv]
    rw [rw_items_idem items, rw_opt_idem ai, rw_opt_idem c]

theorem rw_items_idem (x : Option (SingleOrVec Schema)) :
    rewrite_schema_references.itemsv (rewrite_schema_references.itemsv x) =
      rewrite_schema_references.itemsv x := by
  cases x with
  | none => rfl
  | some v =>
    cases v with
    | single s => simp only [rewrite_schema_references.itemsv]; rw [rw_schema_idem s]
    | vec l => simp only [rewrite_schema_references.itemsv]; rw [rw_list_idem l]

theorem rw_obj_idem (x : Option (ObjectValidation Schema)) :
    rewrite_schema_references.objectv (rewrite_schema_references.objectv x) =
      rewrite_schema_references.objectv x := by
  cases x with
  | none => rfl
  | some v =>
    obtain ⟨p, pp, ap, pn⟩ := v
    simp only [rewrite_schema_references.objectv]
    rw [rw_props_idem p, rw_props_idem pp, rw_opt_idem ap, rw_opt_idem pn]

theorem rw_opt_idem (x : Option Schema) :
    rewrite_schema_references.opt (rewrite_schema_references.opt x) =
      rewrite_schema_references.opt x := by
  cases x with
  | none => rfl
  | some s => simp only [rewrite_schema_references.opt]; rw [rw_schema_idem s]

theorem rw_list_idem (l : List Schema) :
    rewrite_schema_references.list (rewrite_schema_references.list l) =
      rewrite_schema_references.list l := by
  cases l with
  | nil => rfl
  | cons s rest => simp only [rewrite_schema_references.list]; rw [rw_schema_idem s, rw_list_idem rest]

theorem rw_optList_idem (x : Option (List Schema)) :
    rewrite_schema_references.optList (rewrite_schema_references.optList x) =
      rewrite_schema_references.optList x := by
  cases x with
  | none => rfl
  | some l => simp only [rewrite_schema_references.optList]; rw [rw_list_idem l]

theorem rw_props_idem (l : List (Str × Schema)) :
    rewrite_schema_references.props (rewrite_schema_references.props l) =
      rewrite_schema_references.props l := by
  cases l with
  | nil => rfl
  | cons p rest =>
    obtain ⟨k, s⟩ := p
    simp only [rewrite_schema_references.props]
    rw [rw_schema_idem s, rw_props_idem rest]
end

mutual
/-- On a tree whose references are all outside the document-components
namespace, the rewriter is the identity. -/
theorem rw_schema_noop (s : Schema)
    (h : ∀ r ∈ refsSchema s, ("#/components/schemas/".toList).isPrefixOf r = false) :
    rewrite_schema_references.schema s = s := by
  cases s with
  | bool b => rfl
  | obj leaf reference subschemas array object =>
    simp only [refsSchema] at h
    simp only [rewrite_schema_references.schema]
    rw [rw_refv_noop reference (fun r hr => h r (by simp [hr])),
      rw_sub_noop subschemas (fun r hr => h r (by simp [hr])),
      rw_arr_noop array (fun r hr => h r (by simp [hr])),
      rw_obj_noop object (fun r hr => h r (by simp [hr]))]

theorem rw_refv_noop (x : Option Str)
    (h : ∀ r ∈ x.toList, ("#/components/schemas/".toList).isPrefixOf r = false) :
    rewrite_schema_references.refv x = x := by
  cases x with
  | none => rfl
  | some r =>
    simp only [rewrite_schema_references.refv]
    rw [rewriteRef_unmatched r (h r (by simp))]

theorem rw_sub_noop (x : Option (SubschemaValidation Schema))
    (h : ∀ r ∈ refsSub x, ("#/components/schemas/".toList).isPrefixOf r = false) :
    rewrite_schema_references.subs x = x := by
  cases x with
  | none => rfl
  | some v =>
    obtain ⟨ao, an, oo, n, i, t, e⟩ := v
    simp only [refsSub] at h
    simp only [rewrite_schema_references.subs]
    rw [rw_optList_noop ao (fun r hr => h r (by simp [hr])),
      rw_optList_noop an (fun r hr => h r (by simp [hr])),
      rw_optList_noop oo (fun r hr => h r (by simp [hr])),
      rw_opt_noop n (fun r hr => h r (by simp [hr])),
      rw_opt_noop i (fun r hr => h r (by simp [hr])),
      rw_opt_noop t (fun r hr => h r (by simp [hr])),
      rw_opt_noop e (fun r hr => h r (by simp [hr]))]

theorem rw_arr_noop (x : Option (ArrayValidation Schema))
    (h : ∀ r ∈ refsArr x, ("#/components/schemas/".toList).isPrefixOf r = false) :
    rewrite_schema_references.arrayv x = x := by
  cases x with
  | none => rfl
  | some v =>
    obtain ⟨items, ai, c⟩ := v
    simp only [refsArr] at h
    simp only [rewrite_schema_references.arrayv]
    rw [rw_items_noop items (fun r hr => h r (by simp [hr])),
      rw_opt_noop ai (fun r hr => h r (by simp [hr])),
      rw_opt_noop c (fun r hr => h r (by simp [hr]))]

theorem rw_items_noop (x : Option (SingleOrVec Schema))
    (h : ∀ r ∈ refsItems x, ("#/components/schemas/".toList).isPrefixOf r = false) :
    rewrite_schema_references.itemsv x = x := by
  cases x with
  | none => rfl
  | some v =>
    cases v with
    | single s =>
      simp only [refsItems] at h
      simp only [rewrite_schema_references.itemsv]
      rw [rw_schema_noop s h]
    | vec l =>
      simp only [refsItems] at h
      simp only [rewrite_schema_references.itemsv]
      rw [rw_list_noop l h]

theorem rw_obj_noop (x : Option (ObjectValidation Schema))
    (h : ∀ r ∈ refsObj x, ("#/components/schemas/".toList).isPrefixOf r = false) :
    rewrite_schema_references.objectv x = x := by
  cases x with
  | none => rfl
  | some v =>
    obtain ⟨p, pp, ap, pn⟩ := v
    simp only [refsObj] at h
    simp only [rewrite_schema_references.objectv]
    rw [rw_props_noop p (fun r hr => h r (by simp [hr])),
      rw_props_noop pp (fun r hr => h r (by simp [hr])),
      rw_opt_noop ap (fun r hr => h r (by simp [hr])),
      rw_opt_noop pn (fun r hr => h r (by simp [hr]))]

theorem rw_opt_noop (x : Option Schema)
    (h : ∀ r ∈ refsOpt x, ("#/components/schemas/".toList).isPrefixOf r = false) :
    rewrite_schema_references.opt x = x := by
  cases x with
  | none => rfl
  | some s =>
    simp only [refsOpt] at h
    simp only [rewrite_schema_references.opt]
    rw [rw_schema_noop s h]

theorem rw_list_noop (l : List Schema)
    (h : ∀ r ∈ refsList l, ("#/components/schemas/".toList).isPrefixOf r = false) :
    rewrite_schema_references.list l = l := by
  cases l with
  | nil => rfl
  | cons s rest =>
    simp only [refsList] at h
    simp only [rewrite_schema_references.list]
    rw [rw_schema_noop s (fun r hr => h r (by simp [hr])),
      rw_list_noop rest (fun r hr => h r (by simp [hr]))]

theorem rw_optList_noop (x : Option (List Schema))
    (h : ∀ r ∈ refsOptList x, ("#/components/schemas/".toList).isPrefixOf r = false) :
    rewrite_schema_references.optList x = x := by
  cases x with
  | none => rfl
  | some l =>
    simp only [refsOptList] at h
    simp only [rewrite_schema_references.optList]
    rw [rw_list_noop l h]

theorem rw_props_noop (l : List (Str × Schema))
    (h : ∀ r ∈ refsProps l, ("#/components/schemas/".toList).isPrefixOf r = false) :
    rewrite_schema_references.props l = l := by
  cases l with
  | nil => rfl
  | cons p rest =>
    obtain ⟨k, s⟩ := p
    simp only [refsProps] at h
    simp only [rewrite_schema_references.props]
    rw [rw_schema_noop s (fun r hr => h r (by simp [hr])),
      rw_props_noop rest (fun r hr => h r (by simp [hr]))]
end

/-- C5: reference normalization visits every sub-schema of a schema tree and
rewrites every reference beginning with `#/components/schemas/` into
`#/definitions/` keeping the remainder, leaves every other reference
untouched, and changes nothing besides references (it is total, so no error
is ever raised): the references of the rewritten tree are exactly the map of
the single-reference rewrite over the original references, in traversal
order, and the reference-free skeleton is unchanged. -/
theorem C5_normalizer_rewrites_every_reference :
    (∀ s : Schema,
      refsSchema (rewrite_schema_references.schema s) = (refsSchema s).map rewriteRef ∧
      eraseSchema (rewrite_schema_references.schema s) = eraseSchema s) ∧
    (∀ r : Str,
      (("#/components/schemas/".toList).isPrefixOf r = true →
        rewriteRef r =
          "#/definitions/".toList ++ r.drop ("#/components/schemas/".toList).length) ∧
      (("#/components/schemas/".toList).isPrefixOf r = false → rewriteRef r = r)) :=
  ⟨fun s => ⟨refs_schema_rw s, erase_schema_rw s⟩,
   fun r => ⟨rewriteRef_matched r, rewriteRef_unmatched r⟩⟩

/-- Witness for C5 at a concrete schema and concrete references. -/
theorem C5_normalizer_rewrites_every_reference_witness :
    refsSchema (rewrite_schema_references.schema exRefSchema) =
      (refsSchema exRefSchema).map rewriteRef ∧
    rewriteRef ("#/components/schemas/Foo".toList) =
      "#/definitions/".toList ++
        ("#/components/schemas/Foo".toList).drop ("#/components/schemas/".toList).length ∧
    rewriteRef ("#/other/Foo".toList) = "#/other/Foo".toList :=
  ⟨(C5_normalizer_rewrites_every_reference.1 exRefSchema).1,
   (C5_normalizer_rewrites_every_reference.2 ("#/components/schemas/Foo".toList)).1 (by decide),
   (C5_normalizer_rewrites_every_reference.2 ("#/other/Foo".toList)).2 (by decide)⟩

/-- C6: reference normalization is idempotent, and on a tree that is already
canonical (no reference in the document-components namespace) it is the
identity. -/
theorem C6_normalizer_idempotent (s : Schema) :
    rewrite_schema_references.schema (rewrite_schema_references.schema s) =
      rewrite_schema_references.schema s ∧
    (canonicalSchema s → rewrite_schema_references.schema s = s) :=
  ⟨rw_schema_idem s, fun h => rw_schema_noop s h⟩

/-- Witness for C6 at a concrete schema with a reference to rewrite and a
concrete canonical schema. -/
theorem C6_normalizer_idempotent_witness :
    rewrite_schema_references.schema (rewrite_schema_references.schema exRefSchema) =
      rewrite_schema_references.schema exRefSchema ∧
    rewrite_schema_references.schema exCanonSchema = exCanonSchema :=
  ⟨(C6_normalizer_idempotent exRefSchema).1,
   (C6_normalizer_idempotent exCanonSchema).2 (by unfold canonicalSchema; decide)⟩

/-- C3: the requiredness part of the descriptor diff is computed from the two
`required` flags with a missing flag defaulting to false: equal values give no
Required Change, left-true/right-false gives the lost-on-the-right value
(`RequiredChange.left`), left-false/right-true gives the gained-on-the-right
value (`RequiredChange.right`). -/
theorem C3_requiredness_part (sd : SchemaDiffFn) (left right : ContentDescriptor)
    (ld rd : List (Str × Schema)) (cs : List RawChange)
    (h : sd (json left.schema ld) (json right.schema rd) = .ok cs) :
    Except.map requiredPart (diff sd left right ld rd) =
      .ok (requiredChange left.required right.required) ∧
    (requiredChange left.required right.required = none ↔
      left.required.getD false = right.required.getD false) ∧
    (requiredChange left.required right.required = some .left ↔
      left.required.getD false = true ∧ right.required.getD false = false) ∧
    (requiredChange left.required right.required = some .right ↔
      left.required.getD false = false ∧ right.required.getD false = true) := by
  refine ⟨?_, ?_, ?_, ?_⟩
  · unfold diff
    rw [h]
    cases hrc : requiredChange left.required right.required <;> cases cs <;>
      simp [requiredPart, Except.map, hrc]
  · unfold requiredChange
    cases hl : left.required.getD false <;> cases hr : right.required.getD false <;> simp
  · unfold requiredChange
    cases hl : left.required.getD false <;> cases hr : right.required.getD false <;> simp
  · unfold requiredChange
    cases hl : left.required.getD false <;> cases hr : right.required.getD false <;> simp

/-- Witness for C3 at a concrete differ and concrete descriptors. -/
theorem C3_requiredness_part_witness :
    Except.map requiredPart (diff (toE fEmpty) exCD exCD2 [] []) =
      .ok (requiredChange exCD.required exCD2.required) :=
  (C3_requiredness_part (toE fEmpty) exCD exCD2 [] [] [] rfl).1

/-- C4: the descriptor differ returns the no-diff result exactly when the
structural diff of the two combined schema-plus-definitions values is empty
and there is no Required Change; otherwise the result carries exactly the
non-empty parts. -/
theorem C4_descriptor_diff_empty_iff (sd : SchemaDiffFn) (left right : ContentDescriptor)
    (ld rd : List (Str × Schema)) (cs : List RawChange)
    (h : sd (json left.schema ld) (json right.schema rd) = .ok cs) :
    (diff sd left right ld rd = .ok none ↔
      cs = [] ∧ requiredChange left.required right.required = none) ∧
    (∀ c cs2, cs = c :: cs2 → requiredChange left.required right.required = none →
      diff sd left right ld rd = .ok (some (.left cs))) ∧
    (∀ rc, cs = [] → requiredChange left.required right.required = some rc →
      diff sd left right ld rd = .ok (some (.right rc))) ∧
    (∀ c cs2 rc, cs = c :: cs2 → requiredChange left.required right.required = some rc →
      diff sd left right ld rd = .ok (some (.both cs rc))) := by
  refine ⟨?_, ?_, ?_, ?_⟩
  · unfold diff
    rw [h]
    cases hrc : requiredChange left.required right.required <;> cases cs <;> simp [hrc]
  · intro c cs2 hcs hrc
    subst hcs
    unfold diff
    rw [h, hrc]
  · intro rc hcs hrc
    subst hcs
    unfold diff
    rw [h, hrc]
  · intro c cs2 rc hcs hrc
    subst hcs
    unfold diff
    rw [h, hrc]

/-- Witness for C4 at a concrete differ and concrete descriptors. -/
theorem C4_descriptor_diff_empty_iff_witness :
    diff (toE fEmpty) exCD exCD [] [] = .ok none ↔
      ([] : List RawChange) = [] ∧ requiredChange exCD.required exCD.required = none :=
  (C4_descriptor_diff_empty_iff (toE fEmpty) exCD exCD [] [] [] rfl).1

/-- C8: swapping the two inputs of the descriptor differ swaps the diff —
every lost-on-the-right Required Change becomes gained-on-the-right and vice
versa, and, provided the external structural differ is anti-symmetric under
the add/remove subject swap, the structural changes are swapped
analogously. -/
theorem C8_diff_antisymmetric (sd : SchemaDiffFn)
    (hsd : ∀ a b, sd b a = Except.map (List.map swapChange) (sd a b))
    (left right : ContentDescriptor) (ld rd : List (Str × Schema)) :
    diff sd right left rd ld =
      Except.map (Option.map swapEOB) (diff sd left right ld rd) := by
  unfold diff
  rw [hsd (json left.schema ld) (json right.schema rd)]
  have hreq : requiredChange right.required left.required =
      (requiredChange left.required right.required).map swapRequired := by
    unfold requiredChange
    cases left.required.getD false <;> cases right.required.getD false <;> rfl
  cases hsc : sd (json left.schema ld) (json right.schema rd) with
  | error e => simp [Except.map]
  | ok cs =>
    simp only [Except.map]
    rw [hreq]
    cases requiredChange left.required right.required <;> cases cs <;>
      simp [swapEOB, Option.map]

/-- Witness for C8 at a concrete differ satisfying the swap hypothesis. -/
theorem C8_diff_antisymmetric_witness :
    diff (toE fEmpty) exCD2 exCD [] [] =
      Except.map (Option.map swapEOB) (diff (toE fEmpty) exCD exCD2 [] []) :=
  C8_diff_antisymmetric (toE fEmpty) (fun _ _ => rfl) exCD exCD2 [] []

/-- C2: the partitioner splits two method-name sets into three pairwise
disjoint groups whose union is the union of the inputs, and every name of
either input lies in exactly one group. -/
theorem C2_partition_complete (l r : List Str) :
    ((venn l r).1.toFinset ∪ (venn l r).2.1.toFinset ∪ (venn l r).2.2.toFinset =
      l.toFinset ∪ r.toFinset) ∧
    ((venn l r).1.toFinset ∩ (venn l r).2.1.toFinset = ∅) ∧
    ((venn l r).1.toFinset ∩ (venn l r).2.2.toFinset = ∅) ∧
    ((venn l r).2.1.toFinset ∩ (venn l r).2.2.toFinset = ∅) ∧
    (∀ x, x ∈ l ∨ x ∈ r →
      ((x ∈ (venn l r).1 ∧ x ∉ (venn l r).2.1 ∧ x ∉ (venn l r).2.2) ∨
       (x ∉ (venn l r).1 ∧ x ∈ (venn l r).2.1 ∧ x ∉ (venn l r).2.2) ∨
       (x ∉ (venn l r).1 ∧ x ∉ (venn l r).2.1 ∧ x ∈ (venn l r).2.2))) := by
  refine ⟨?_, ?_, ?_, ?_, ?_⟩
  · ext x
    simp [venn, setDifference, setIntersection, List.mem_filter]
    tauto
  · ext x
    simp [venn, setDifference, setIntersection, List.mem_filter]
    tauto
  · ext x
    simp [venn, setDifference, setIntersection, List.mem_filter]
    tauto
  · ext x
    simp [venn, setDifference, setIntersection, List.mem_filter]
    tauto
  · intro x hx
    simp only [venn, setDifference, setIntersection]
    by_cases hl : x ∈ l <;> by_cases hr : x ∈ r <;>
      simp [List.mem_filter, hl, hr] <;> tauto

/-- Witness for C2 at concrete name sets and a concrete member. -/
theorem C2_partition_complete_witness :
    ("a".toList ∈ exNamesL ∨ "a".toList ∈ exNamesR) ∧
    (("a".toList ∈ (venn exNamesL exNamesR).1 ∧
        "a".toList ∉ (venn exNamesL exNamesR).2.1 ∧
        "a".toList ∉ (venn exNamesL exNamesR).2.2) ∨
     ("a".toList ∉ (venn exNamesL exNamesR).1 ∧
        "a".toList ∈ (venn exNamesL exNamesR).2.1 ∧
        "a".toList ∉ (venn exNamesL exNamesR).2.2) ∨
     ("a".toList ∉ (venn exNamesL exNamesR).1 ∧
        "a".toList ∉ (venn exNamesL exNamesR).2.1 ∧
        "a".toList ∈ (venn exNamesL exNamesR).2.2)) :=
  ⟨Or.inl (by decide),
   (C2_partition_complete exNamesL exNamesR).2.2.2.2 ("a".toList) (Or.inl (by decide))⟩

/-- `getLast?` of a cons cell. -/
theorem getLast?_cons_eq {α : Type} (a : α) (l : List α) :
    (a :: l).getLast? = some (l.getLast?.getD a) := by
  induction l generalizing a with
  | nil => rfl
  | cons b t ih => simp [List.getLast?_cons_cons, ih b]

/-- Looking up the key just inserted. -/
theorem btLookup_btInsert_self {V : Type} (k : Str) (v : V) (m : List (Str × V)) :
    btLookup k (btInsert k v m) = some v := by
  induction m with
  | nil => simp [btInsert, btLookup]
  | cons p rest ih =>
    obtain ⟨q, w⟩ := p
    by_cases h : k = q
    · simp [btInsert, h, btLookup]
    · simp [btInsert, h, btLookup, ih]

/-- Inserting a different key does not change a lookup. -/
theorem btLookup_btInsert_ne {V : Type} (k q : Str) (hne : k ≠ q) (v : V)
    (m : List (Str × V)) :
    btLookup k (btInsert q v m) = btLookup k m := by
  induction m with
  | nil => simp [btInsert, btLookup, hne]
  | cons p rest ih =>
    obtain ⟨a, w⟩ := p
    by_cases h : q = a
    · subst h
      simp [btInsert, btLookup, hne, ih]
    · by_cases h2 : k = a <;> simp [btInsert, btLookup, h, h2, ih]

/-- A fold of inserts looks up to the last pair of the list carrying the key,
and otherwise to the accumulator. -/
theorem btLookup_foldl {V : Type} (k : Str) (l : List (Str × V)) :
    ∀ acc, btLookup k (l.foldl (fun m p => btInsert p.1 p.2 m) acc) =
      match (l.filter (fun p => decide (p.1 = k))).getLast? with
      | some p => some p.2
      | none => btLookup k acc := by
  induction l with
  | nil => intro acc; rfl
  | cons p rest ih =>
    intro acc
    obtain ⟨q, w⟩ := p
    rw [List.foldl_cons, ih (btInsert q w acc)]
    by_cases h : q = k
    · subst h
      rw [List.filter_cons_of_pos (by simp), getLast?_cons_eq]
      cases hfl : (rest.filter (fun p => decide (p.1 = q))).getLast? with
      | none => simp [btLookup_btInsert_self]
      | some p2 => simp
    · rw [List.filter_cons_of_neg (by simp [h])]
      cases hfl : (rest.filter (fun p => decide (p.1 = k))).getLast? with
      | none => simp [btLookup_btInsert_ne k q (fun he => h he.symm) w acc]
      | some p2 => simp

/-- C10: when a document lists several methods with the same name, the method
extractor keeps only the last occurrence — the name-keyed map produced by
collecting the extracted pairs maps each name to the parameter list and
return descriptor of the last method with that name (and to nothing when the
name does not occur). -/
theorem C10_last_duplicate_wins (ms : List Method) (name : Str) :
    btLookup name (btCollect (ms.map method)) =
      ((ms.filter (fun m => decide (m.name = name))).getLast?).map
        (fun m => (m.params, m.result)) := by
  unfold btCollect
  rw [btLookup_foldl]
  have hf : (ms.map method).filter (fun p => decide (p.1 = name)) =
      (ms.filter (fun m => decide (m.name = name))).map method := by
    rw [List.filter_map]
    congr 1
  rw [hf, List.getLast?_map]
  cases (ms.filter (fun m => decide (m.name = name))).getLast? with
  | none => rfl
  | some m => rfl

/-- Under a total structural-diff function the descriptor differ never
fails. -/
theorem diff_toE (f : RootSchemaV → RootSchemaV → List RawChange)
    (left right : ContentDescriptor) (ld rd : List (Str × Schema)) :
    diff (toE f) left right ld rd = .ok (diffT f left right ld rd) := by
  have h : ∃ o, diff (toE f) left right ld rd = .ok o := by
    simp only [diff, toE]
    cases requiredChange left.required right.required <;>
      cases f (json left.schema ld) (json right.schema rd) <;>
      exact ⟨_, rfl⟩
  obtain ⟨o, h⟩ := h
  unfold diffT
  rw [h]

/-- A sequential fallible map of an everywhere-successful function succeeds
with the map of the underlying values. -/
theorem mapE_ok {α β : Type} (g : α → Except Str β) (g2 : α → β)
    (h : ∀ x, g x = .ok (g2 x)) : ∀ l : List α, mapE g l = .ok (l.map g2)
  | [] => rfl
  | x :: xs => by
    simp only [mapE]
    rw [h x, mapE_ok g g2 h xs]
    rfl

/-- Filtering an enumeration is filtering over the index range, reading the
list at each index. -/
theorem enumFrom_filterMap_range {α β : Type} (d : α) (g : Nat × α → Option β) :
    ∀ (l : List α) (k : Nat),
      (l.enumFrom k).filterMap g =
        (List.range l.length).filterMap (fun i => g (k + i, l.getD i d)) := by
  intro l
  induction l with
  | nil => intro k; rfl
  | cons a t ih =>
    intro k
    rw [List.enumFrom_cons, List.filterMap_cons, List.length_cons, List.range_succ_eq_map,
      List.filterMap_cons, ih (k + 1), List.filterMap_map]
    have harg : ((fun i => g (k + i, (a :: t).getD i d)) ∘ Nat.succ) =
        (fun i => g (k + 1 + i, t.getD i d)) := by
      funext i
      simp only [Function.comp, List.getD_cons_succ, Nat.add_succ, Nat.succ_add]
    rw [harg]
    simp only [Nat.add_zero, List.getD_cons_zero]

/-- Padded lists reach the requested length. -/
theorem padTo_length (n : Nat) (xs : List ContentDescriptor) (h : xs.length ≤ n) :
    (padTo n xs).length = n := by
  simp only [padTo, List.length_append, List.length_replicate]
  omega

/-- The enumerate-then-keep-non-empty pass over two equal-length zipped lists
is the filter over positions `0..n` reading both lists at each position. -/
theorem zip_enum_filterMap {X : Type} (n : Nat) (pl pr : List ContentDescriptor)
    (hl : pl.length = n) (hr : pr.length = n)
    (dfn : ContentDescriptor × ContentDescriptor → Option X) :
    (((pl.zip pr).map dfn).enum).filterMap (fun p => p.2.map (fun it => (p.1, it))) =
      (List.range n).filterMap (fun i =>
        (dfn (pl.getD i NO_DESCRIPTOR, pr.getD i NO_DESCRIPTOR)).map (fun it => (i, it))) := by
  have hzlen : (pl.zip pr).length = n := by rw [List.length_zip, hl, hr, Nat.min_self]
  have hmlen : ((pl.zip pr).map dfn).length = n := by rw [List.length_map, hzlen]
  rw [show ((pl.zip pr).map dfn).enum = ((pl.zip pr).map dfn).enumFrom 0 from rfl]
  rw [enumFrom_filterMap_range none (fun p => p.2.map (fun it => (p.1, it)))]
  rw [hmlen]
  apply List.filterMap_congr
  intro i hi
  have hin : i < n := List.mem_range.mp hi
  simp only [Nat.zero_add]
  rw [List.getD_eq_getElem _ _ (by rw [hmlen]; exact hin)]
  rw [List.getElem_map, List.getElem_zip]
  rw [List.getD_eq_getElem pl NO_DESCRIPTOR (by rw [hl]; exact hin),
    List.getD_eq_getElem pr NO_DESCRIPTOR (by rw [hr]; exact hin)]

/-- The verdict match commutes with the success constructor. -/
theorem match_ok_comm (pds0 : List (Nat × EitherOrBoth (List RawChange) RequiredChange))
    (rdf0 : Option (EitherOrBoth (List RawChange) RequiredChange)) :
    (match pds0, rdf0 with
     | [], none => (Except.ok none : Except Str (Option summary.MethodChange))
     | pds, rdf =>
       Except.ok (some { parameter := pds.map (fun p => (p.1, summary.cdcFrom p.2)),
                         result := rdf.map summary.cdcFrom })) =
    Except.ok (match pds0, rdf0 with
     | [], none => none
     | pds, rdf =>
       some { parameter := pds.map (fun p => (p.1, summary.cdcFrom p.2)),
              result := rdf.map summary.cdcFrom }) := by
  cases pds0 <;> cases rdf0 <;> rfl

/-- C1: the pairing engine behaves exactly as specified — it takes N to be
the larger parameter count, pads the shorter parameter list at its end with
the absent-descriptor sentinel, diffs the descriptors at each position 0..N
keeping only the non-empty diffs keyed by position, diffs the return
descriptors with the sentinel substituted for an absent return, and declares
the method compatible (no Method Change) exactly when the kept collection and
the return diff are both empty: the source loop body `pairMethod` equals the
specification-worded `pairSpec` whenever the structural-diff library is
total. -/
theorem C1_pairing_engine (f : RootSchemaV → RootSchemaV → List RawChange)
    (ld rd : List (Str × Schema))
    (lm rm : List ContentDescriptor × Option ContentDescriptor) :
    pairMethod (toE f) ld rd lm rm = .ok (pairSpec f ld rd lm rm) := by
  have hmap := mapE_ok (fun p => diff (toE f) p.1 p.2 ld rd)
      (fun p => diffT f p.1 p.2 ld rd)
      (fun p => diff_toE f p.1 p.2 ld rd)
      ((padTo (max lm.1.length rm.1.length) lm.1).zip
        (padTo (max lm.1.length rm.1.length) rm.1))
  have hres := diff_toE f (lm.2.getD NO_DESCRIPTOR) (rm.2.getD NO_DESCRIPTOR) ld rd
  have hkept := zip_enum_filterMap (max lm.1.length rm.1.length)
      (padTo (max lm.1.length rm.1.length) lm.1)
      (padTo (max lm.1.length rm.1.length) rm.1)
      (padTo_length _ _ (Nat.le_max_left _ _))
      (padTo_length _ _ (Nat.le_max_right _ _))
      (fun p => diffT f p.1 p.2 ld rd)
  simp only [pairMethod, pairSpec, padTo] at hmap hres hkept ⊢
  rw [hmap, hres]
  dsimp only
  rw [hkept]
  exact match_ok_comm _ _

/-- Equal requiredness flags produce no Required Change. -/
theorem requiredChange_self (q : Option Bool) : requiredChange q q = none := by
  unfold requiredChange
  cases q.getD false <;> rfl

/-- Diffing a descriptor against itself with its own definitions yields no
diff, provided the structural differ is reflexive. -/
theorem diff_self (sd : SchemaDiffFn) (h : ∀ v, sd v v = Except.ok [])
    (defs : List (Str × Schema)) (cd : ContentDescriptor) :
    diff sd cd cd defs defs = .ok none := by
  unfold diff
  rw [h (json cd.schema defs)]
  simp [requiredChange_self]

/-- Zipping a list with itself pairs each element with itself. -/
theorem zip_self {α : Type} (l : List α) : l.zip l = l.map (fun x => (x, x)) := by
  induction l with
  | nil => rfl
  | cons a t ih => rw [List.zip_cons_cons, ih, List.map_cons]

/-- A sequential fallible map succeeds when every member succeeds. -/
theorem mapE_ok_of_mem {α β : Type} (g : α → Except Str β) (g2 : α → β) :
    ∀ l : List α, (∀ x ∈ l, g x = .ok (g2 x)) → mapE g l = .ok (l.map g2)
  | [], _ => rfl
  | x :: xs, h => by
    simp only [mapE]
    rw [h x (by simp), mapE_ok_of_mem g g2 xs (fun y hy => h y (by simp [hy]))]
    rfl

/-- Enumerating an all-`none` list and keeping the non-empty entries keeps
nothing. -/
theorem filterMap_enum_none {α X : Type} :
    ∀ (l : List α) (k : Nat),
      ((l.map (fun _ => (none : Option X))).enumFrom k).filterMap
        (fun p => p.2.map (fun it => (p.1, it))) = ([] : List (Nat × X))
  | [], _ => rfl
  | a :: t, k => by
    rw [List.map_cons, List.enumFrom_cons, List.filterMap_cons]
    exact filterMap_enum_none t (k + 1)

/-- Pairing a method signature against itself is compatible whenever the
structural differ is reflexive. -/
theorem pairMethod_self (sd : SchemaDiffFn) (h : ∀ v, sd v v = Except.ok [])
    (defs : List (Str × Schema)) (md : List ContentDescriptor × Option ContentDescriptor) :
    pairMethod sd defs defs md md = .ok none := by
  have hzip := zip_self (padTo (max md.1.length md.1.length) md.1)
  have hmapE : mapE (fun p => diff sd p.1 p.2 defs defs)
      ((padTo (max md.1.length md.1.length) md.1).zip
        (padTo (max md.1.length md.1.length) md.1)) =
      .ok (((padTo (max md.1.length md.1.length) md.1).zip
        (padTo (max md.1.length md.1.length) md.1)).map (fun _ => none)) := by
    apply mapE_ok_of_mem
    intro x hx
    rw [hzip] at hx
    obtain ⟨y, _, hy⟩ := List.mem_map.mp hx
    rw [← hy]
    exact diff_self sd h defs y
  have hres := diff_self sd h defs (md.2.getD NO_DESCRIPTOR)
  have hfil : ((((padTo (max md.1.length md.1.length) md.1).zip
      (padTo (max md.1.length md.1.length) md.1)).map
        (fun _ => (none : Option (EitherOrBoth (List RawChange) RequiredChange)))).enum).filterMap
      (fun p => p.2.map (fun it => (p.1, it))) = [] :=
    filterMap_enum_none _ 0
  simp only [pairMethod]
  rw [hmapE, hres]
  dsimp only
  rw [hfil]

/-- The main loop over identical method maps marks every common method
compatible, in order. -/
theorem mainLoop_self (sd : SchemaDiffFn) (h : ∀ v, sd v v = Except.ok [])
    (defs : List (Str × Schema))
    (meths : List (Str × (List ContentDescriptor × Option ContentDescriptor))) :
    ∀ (c : List Str) (acc : List (Str × summary.MethodChange) × List Str),
      mainLoop sd defs defs meths meths c acc = .ok (acc.1, acc.2 ++ c)
  | [], acc => by simp [mainLoop]
  | m :: rest, acc => by
    simp only [mainLoop]
    rw [pairMethod_self sd h defs ((btLookup m meths).getD ([], none))]
    rw [mainLoop_self sd h defs meths rest (acc.1, acc.2 ++ [m])]
    simp

/-- The difference of a name list with itself is empty. -/
theorem setDifference_self (l : List Str) : setDifference l l = [] := by
  simp [setDifference, List.filter_eq_nil_iff]

/-- The intersection of a name list with itself is itself. -/
theorem setIntersection_self (l : List Str) : setIntersection l l = l := by
  rw [setIntersection, List.filter_eq_self]
  intro a ha
  simpa using ha

/-- Inserting a key adds it to the key set. -/
theorem btKeys_btInsert_toFinset {V : Type} (k : Str) (v : V) (m : List (Str × V)) :
    (btKeys (btInsert k v m)).toFinset = insert k (btKeys m).toFinset := by
  induction m with
  | nil => simp [btInsert, btKeys]
  | cons p rest ih =>
    obtain ⟨q, w⟩ := p
    by_cases hkq : k = q
    · subst hkq
      rw [show btInsert k v ((k, w) :: rest) = (k, v) :: rest from by simp [btInsert]]
      simp only [btKeys, List.map_cons, List.toFinset_cons]
      rw [Finset.insert_idem]
    · ext x
      simp only [btInsert, if_neg hkq, btKeys, List.map_cons, List.toFinset_cons,
        Finset.mem_insert]
      have hx : x ∈ (btKeys (btInsert k v rest)).toFinset ↔
          x = k ∨ x ∈ (btKeys rest).toFinset := by rw [ih]; simp
      simp only [btKeys] at hx
      rw [hx]
      tauto

/-- The key set of a fold of inserts. -/
theorem btKeys_foldl_toFinset {V : Type} (l : List (Str × V)) :
    ∀ acc, (btKeys (l.foldl (fun m p => btInsert p.1 p.2 m) acc)).toFinset =
      (btKeys acc).toFinset ∪ (l.map Prod.fst).toFinset := by
  induction l with
  | nil => intro acc; simp
  | cons p rest ih =>
    intro acc
    rw [List.foldl_cons, ih (btInsert p.1 p.2 acc), btKeys_btInsert_toFinset]
    ext x
    simp only [Finset.mem_union, Finset.mem_insert, List.map_cons, List.toFinset_cons]
    tauto

/-- The key set of the collected method map is the set of extracted names. -/
theorem btKeys_btCollect_toFinset {V : Type} (l : List (Str × V)) :
    (btKeys (btCollect l)).toFinset = (l.map Prod.fst).toFinset := by
  unfold btCollect
  rw [btKeys_foldl_toFinset]
  simp [btKeys]

/-- Reference normalization does not change method names. -/
theorem open_rpc_method_names (doc : OpenRPC) :
    ((rewrite_schema_references.open_rpc doc).methods.map method).map Prod.fst =
      doc.methods.map Method.name := by
  simp only [rewrite_schema_references.open_rpc, List.map_map]
  rfl

/-- The defining equation of the document reader, restated (the plain name
is shadowed by a monad-transformer operation inside proofs). -/
theorem read_unfold (fs : Str → FileOutcome) (path : Str) :
    read fs path = match fs path with
      | .unopenable => .error ("couldn\x27t open file ".toList ++ path)
      | .unparsable => .error ("couldn\x27t deserialize file ".toList ++ path)
      | .ok doc => .ok doc := rfl

/-- C7: comparing a document against itself yields a Summary with empty
`different`, empty `left` and empty `right`, and with `equivalent` holding
exactly the method names of the document, provided the structural-diff
library is reflexive (it reports no change between two equal values). -/
theorem C7_reflexivity (fs : Str → FileOutcome) (sd : SchemaDiffFn) (path : Str)
    (doc : OpenRPC) (h1 : fs path = .ok doc) (h2 : ∀ v, sd v v = Except.ok []) :
    ∃ s, mainE fs sd path path = .ok s ∧
      s.different = [] ∧ s.left = [] ∧ s.right = [] ∧
      s.equivalent.toFinset = (doc.methods.map Method.name).toFinset := by
  have hprep : prepare fs path = .ok
      (((rewrite_schema_references.open_rpc doc).components.getD ⟨none, none⟩).schemas.getD [],
       btCollect ((rewrite_schema_references.open_rpc doc).methods.map method)) := by
    unfold prepare
    rw [read_unfold, h1]
  have hmain : mainE fs sd path path = .ok
      { equivalent :=
          btKeys (btCollect ((rewrite_schema_references.open_rpc doc).methods.map method)),
        different := [], left := [], right := [] } := by
    unfold mainE
    rw [hprep]
    dsimp only
    simp only [venn]
    rw [setDifference_self, setIntersection_self]
    rw [mainLoop_self sd h2 _ _ _ ([], [])]
    simp
  refine ⟨_, hmain, rfl, rfl, rfl, ?_⟩
  show (btKeys (btCollect
      ((rewrite_schema_references.open_rpc doc).methods.map method))).toFinset =
    (doc.methods.map Method.name).toFinset
  rw [btKeys_btCollect_toFinset, open_rpc_method_names]

/-- Witness for C7 at a concrete file system, document and differ. -/
theorem C7_reflexivity_witness :
    ∃ s, mainE exFs (toE fEmpty) exLeftPath exLeftPath = .ok s ∧
      s.different = [] ∧ s.left = [] ∧ s.right = [] ∧
      s.equivalent.toFinset = (exDoc.methods.map Method.name).toFinset :=
  C7_reflexivity exFs (toE fEmpty) exLeftPath exDoc rfl (fun _ => rfl)

/-- A readable, parsable file prepares successfully. -/
theorem prepare_ok (fs : Str → FileOutcome) (path : Str) (doc : OpenRPC)
    (h : fs path = .ok doc) :
    prepare fs path = .ok
      (((rewrite_schema_references.open_rpc doc).components.getD ⟨none, none⟩).schemas.getD [],
       btCollect ((rewrite_schema_references.open_rpc doc).methods.map method)) := by
  unfold prepare
  rw [read_unfold, h]

/-- An unopenable file aborts preparation with a message naming the path. -/
theorem prepare_unopenable (fs : Str → FileOutcome) (path : Str)
    (h : fs path = .unopenable) :
    prepare fs path = .error ("couldn\x27t open file ".toList ++ path) := by
  unfold prepare
  rw [read_unfold, h]

/-- An unparsable file aborts preparation with a message naming the path. -/
theorem prepare_unparsable (fs : Str → FileOutcome) (path : Str)
    (h : fs path = .unparsable) :
    prepare fs path = .error ("couldn\x27t deserialize file ".toList ++ path) := by
  unfold prepare
  rw [read_unfold, h]

/-- A failing descriptor diff is a failing library call. -/
theorem diff_error (sd : SchemaDiffFn) (a b : ContentDescriptor)
    (ld rd : List (Str × Schema)) (e : Str) (h : diff sd a b ld rd = .error e) :
    sd (json a.schema ld) (json b.schema rd) = .error e := by
  unfold diff at h
  cases hs : sd (json a.schema ld) (json b.schema rd) with
  | error e2 =>
    rw [hs] at h
    cases h
    rfl
  | ok cs =>
    rw [hs] at h
    cases hrc : requiredChange a.required b.required <;> cases cs <;> simp [hrc] at h

/-- A failing fallible map has a failing member. -/
theorem mapE_error {α β : Type} (g : α → Except Str β) (e : Str) :
    ∀ l : List α, mapE g l = .error e → ∃ x ∈ l, g x = .error e
  | [], h => by simp [mapE] at h
  | x :: xs, h => by
    simp only [mapE] at h
    cases hg : g x with
    | error e2 =>
      rw [hg] at h
      cases h
      exact ⟨x, by simp, hg⟩
    | ok y =>
      rw [hg] at h
      cases hm : mapE g xs with
      | error e2 =>
        rw [hm] at h
        cases h
        obtain ⟨z, hz, hze⟩ := mapE_error g e xs hm
        exact ⟨z, by simp [hz], hze⟩
      | ok ys => rw [hm] at h; cases h

/-- A failing pairing is a failing library call. -/
theorem pairMethod_error (sd : SchemaDiffFn) (ld rd : List (Str × Schema))
    (lm rm : List ContentDescriptor × Option ContentDescriptor) (e : Str)
    (h : pairMethod sd ld rd lm rm = .error e) : ∃ a b, sd a b = .error e := by
  unfold pairMethod at h
  dsimp only at h
  cases hm : mapE (fun p => diff sd p.1 p.2 ld rd)
      ((padTo (max lm.1.length rm.1.length) lm.1).zip
        (padTo (max lm.1.length rm.1.length) rm.1)) with
  | error e2 =>
    rw [hm] at h
    cases h
    obtain ⟨p, _, hp⟩ := mapE_error _ _ _ hm
    exact ⟨_, _, diff_error sd p.1 p.2 ld rd e hp⟩
  | ok results =>
    rw [hm] at h
    dsimp only at h
    cases hr : diff sd (lm.2.getD NO_DESCRIPTOR) (rm.2.getD NO_DESCRIPTOR) ld rd with
    | error e2 =>
      rw [hr] at h
      cases h
      exact ⟨_, _, diff_error sd _ _ ld rd e hr⟩
    | ok rdiff =>
      rw [hr] at h
      cases hpd : results.enum.filterMap (fun p => p.2.map (fun it => (p.1, it))) with
      | nil => rw [hpd] at h; cases rdiff <;> simp at h
      | cons q qs => rw [hpd] at h; cases rdiff <;> simp at h

/-- A failing main loop is a failing library call. -/
theorem mainLoop_error (sd : SchemaDiffFn) (ld rd : List (Str × Schema))
    (lM rM : List (Str × (List ContentDescriptor × Option ContentDescriptor))) (e : Str) :
    ∀ (c : List Str) (acc : List (Str × summary.MethodChange) × List Str),
      mainLoop sd ld rd lM rM c acc = .error e → ∃ a b, sd a b = .error e
  | [], acc, h => by simp [mainLoop] at h
  | m :: rest, acc, h => by
    simp only [mainLoop] at h
    cases hp : pairMethod sd ld rd ((btLookup m lM).getD ([], none))
        ((btLookup m rM).getD ([], none)) with
    | error e2 =>
      rw [hp] at h
      cases h
      exact pairMethod_error sd ld rd _ _ e hp
    | ok verdict =>
      rw [hp] at h
      cases verdict with
      | none => exact mainLoop_error sd ld rd lM rM e rest _ h
      | some mc => exact mainLoop_error sd ld rd lM rM e rest _ h

/-- Counterexample to C9 as stated: a precondition violation during
structural diffing (the external library failing) terminates the comparison,
but the error description is the library message alone — it does not name
either input file path. -/
theorem C9_counterexample_no_path_in_panic :
    mainE exFs sdPanic exLeftPath exRightPath = .error ("structural diff failed".toList) ∧
    ¬ List.IsInfix exLeftPath ("structural diff failed".toList) ∧
    ¬ List.IsInfix exRightPath ("structural diff failed".toList) :=
  ⟨rfl, by decide, by decide⟩

/-- C9 (amended): a file that cannot be opened or parsed terminates the whole
comparison with an error naming the offending path; a precondition violation
during structural diffing terminates the whole comparison with the library
failure message (which does not name a path); in every case the result is an
error — no partial Summary is produced. -/
theorem C9_failures_abort (fs : Str → FileOutcome) (sd : SchemaDiffFn) (left right : Str) :
    (fs left = .unopenable →
      mainE fs sd left right = .error ("couldn\x27t open file ".toList ++ left)) ∧
    (fs left = .unparsable →
      mainE fs sd left right = .error ("couldn\x27t deserialize file ".toList ++ left)) ∧
    (∀ docL, fs left = .ok docL → fs right = .unopenable →
      mainE fs sd left right = .error ("couldn\x27t open file ".toList ++ right)) ∧
    (∀ docL, fs left = .ok docL → fs right = .unparsable →
      mainE fs sd left right = .error ("couldn\x27t deserialize file ".toList ++ right)) ∧
    (∀ docL docR e, fs left = .ok docL → fs right = .ok docR →
      mainE fs sd left right = .error e → ∃ a b, sd a b = .error e) := by
  refine ⟨?_, ?_, ?_, ?_, ?_⟩
  · intro h
    unfold mainE
    rw [prepare_unopenable fs left h]
  · intro h
    unfold mainE
    rw [prepare_unparsable fs left h]
  · intro docL hL h
    unfold mainE
    rw [prepare_ok fs left docL hL]
    dsimp only
    rw [prepare_unopenable fs right h]
  · intro docL hL h
    unfold mainE
    rw [prepare_ok fs left docL hL]
    dsimp only
    rw [prepare_unparsable fs right h]
  · intro docL docR e hL hR h
    unfold mainE at h
    rw [prepare_ok fs left docL hL, prepare_ok fs right docR hR] at h
    dsimp only at h
    cases hml : mainLoop sd _ _ _ _
        (venn (btKeys (btCollect ((rewrite_schema_references.open_rpc docL).methods.map method)))
          (btKeys (btCollect
            ((rewrite_schema_references.open_rpc docR).methods.map method)))).2.1
        ([], []) with
    | error e2 =>
      rw [hml] at h
      cases h
      exact mainLoop_error sd _ _ _ _ e _ _ hml
    | ok st => rw [hml] at h; cases h

/-- Witness for the amended C9 at a concrete unopenable file system and at a
concrete diffing failure. -/
theorem C9_failures_abort_witness :
    mainE exFsBad sdPanic exLeftPath exRightPath =
      .error ("couldn\x27t open file ".toList ++ exLeftPath) :=
  (C9_failures_abort exFsBad sdPanic exLeftPath exRightPath).1 rfl
